import Mathlib

/-!
# Verification of the Decent Sampler preset converter (`tools/dspreset_parser.py`)

A shallow embedding of the parsing and normalization pipeline of the
`dspreset` converter: the scalar parsers (`parse_note`, `parse_db`,
`parse_time`), the preset parser (`parse_dspreset`), the serializer
(`preset_to_dict`) and the batch driver (`scan_folder`), together with
theorems settling the specification claims about them.

Modelling conventions:
* Python `float` values are modelled as rationals (`ℚ`); none of the
  verified properties depends on IEEE-754 rounding.
* Python `int` values are modelled as `ℤ`.
* Python strings are modelled as `String` / `List Char`; `None` as `none`.
* Code that can raise returns `Except PyError _`; the total scalar parsers
  return plain values, mirroring their Python bodies in which every
  conversion is wrapped in `try/except`.
* The builtins `int(str)` and `float(str)` are modelled on their documented
  decimal grammar (optional surrounding whitespace, optional sign, digits,
  and for `float` an optional fractional part and exponent).  Underscore
  digit separators and the special values `inf`/`nan` are not modelled; no
  input considered below uses them.
-/

namespace Dspreset

/-- Exceptions the Python code can raise: `xml.etree` parse failure,
`ValueError` from `int()`/`float()`, `IndexError` from indexing. -/
inductive PyError : Type where
  | parseError : PyError
  | valueError : PyError
  | indexError : PyError
deriving DecidableEq

/-- Python `str.isspace` characters relevant to `str.strip()` / `int()` /
`float()` (ASCII whitespace, by code point: space, tab, newline, carriage
return, vertical tab, form feed). -/
def isPySpace (c : Char) : Bool :=
  decide (c.toNat = 32 ∨ c.toNat = 9 ∨ c.toNat = 10 ∨ c.toNat = 13 ∨
    c.toNat = 11 ∨ c.toNat = 12)

/-- ASCII decimal digit test (the digits accepted by Python `int`/`float`
literals). -/
def isDigitCh (c : Char) : Bool :=
  decide (48 ≤ c.toNat ∧ c.toNat ≤ 57)

/-- Python `str.lower` on one character (ASCII range, which is all the
code compares against). -/
def pyLower (c : Char) : Char :=
  if 65 ≤ c.toNat ∧ c.toNat ≤ 90 then Char.ofNat (c.toNat + 32) else c

/-- Python `str.upper` on one character (ASCII range). -/
def pyUpper (c : Char) : Char :=
  if 97 ≤ c.toNat ∧ c.toNat ≤ 122 then Char.ofNat (c.toNat - 32) else c

/-- Python `str.lower` on a whole string. -/
def pyLowerStr (l : List Char) : List Char := l.map pyLower

/-- Python `str.strip()`: drop leading and trailing whitespace. -/
def stripPyList (l : List Char) : List Char :=
  ((l.dropWhile isPySpace).reverse.dropWhile isPySpace).reverse

/-- Numeric value of a digit character. -/
def digitVal (c : Char) : ℕ := c.toNat - 48

/-- Value of a digit string, most significant digit first. -/
def digitsToNat (l : List Char) : ℕ :=
  l.foldl (fun a c => 10 * a + digitVal c) 0

/-- Parses a nonempty all-digit string; `none` otherwise. -/
def decDigits? (l : List Char) : Option ℕ :=
  if l = [] then none
  else if l.all isDigitCh then some (digitsToNat l) else none

/-- Sign-then-digits integer parsing (shared by `int()` and the exponent
part of `float()`). -/
def pyIntCore : List Char → Option ℤ
  | [] => none
  | c :: rest =>
    if c = '+' then (decDigits? rest).map (fun n => (n : ℤ))
    else if c = '-' then (decDigits? rest).map (fun n => -(n : ℤ))
    else (decDigits? (c :: rest)).map (fun n => (n : ℤ))

/-- Models the Python builtin `int(s)` for a decimal string: optional
surrounding whitespace, optional sign, one or more digits; `none` models a
raised `ValueError`. -/
def pythonInt (l : List Char) : Option ℤ := pyIntCore (stripPyList l)

/-- Splits at the first `'.'`, if any. -/
def splitOnDot : List Char → List Char × Option (List Char)
  | [] => ([], none)
  | c :: rest =>
    if c = '.' then ([], some rest)
    else
      let p := splitOnDot rest
      (c :: p.1, p.2)

/-- Splits at the first `'e'`/`'E'`, if any. -/
def splitOnExp : List Char → List Char × Option (List Char)
  | [] => ([], none)
  | c :: rest =>
    if c = 'e' ∨ c = 'E' then ([], some rest)
    else
      let p := splitOnExp rest
      (c :: p.1, p.2)

/-- Unsigned mantissa of a float literal: `digits`, `digits.digits`,
`digits.` or `.digits`. -/
def parseMantissa (l : List Char) : Option ℚ :=
  match splitOnDot l with
  | (ip, none) => (decDigits? ip).map (fun n => (n : ℚ))
  | (ip, some fp) =>
    if ip = [] ∧ fp = [] then none
    else if ip.all isDigitCh ∧ fp.all isDigitCh then
      some ((digitsToNat ip : ℚ) + (digitsToNat fp : ℚ) / (10 : ℚ) ^ fp.length)
    else none

/-- Mantissa with an optional leading sign. -/
def parseSignedMantissa (l : List Char) : Option ℚ :=
  match l with
  | [] => none
  | c :: rest =>
    if c = '+' then parseMantissa rest
    else if c = '-' then (parseMantissa rest).map Neg.neg
    else parseMantissa (c :: rest)

/-- Float literal body: signed mantissa with optional `e`-exponent. -/
def pyFloatCore (l : List Char) : Option ℚ :=
  match splitOnExp l with
  | (m, none) => parseSignedMantissa m
  | (m, some e) => do
    let mv ← parseSignedMantissa m
    let ev ← pyIntCore e
    some (mv * (10 : ℚ) ^ ev)

/-- Models the Python builtin `float(s)` for a decimal string; `none`
models a raised `ValueError`. -/
def pythonFloat (l : List Char) : Option ℚ := pyFloatCore (stripPyList l)

/-!  ## The scalar parsers (`parse_note`, `parse_db`, `parse_time`)  -/

/-- The `note_names` dictionary lookup of `parse_note`, applied to the
uppercased character: `{'C': 0, 'D': 2, 'E': 4, 'F': 5, 'G': 7, 'A': 9,
'B': 11}`. -/
def noteSemitone (u : Char) : Option ℤ :=
  if u = 'C' then some 0
  else if u = 'D' then some 2
  else if u = 'E' then some 4
  else if u = 'F' then some 5
  else if u = 'G' then some 7
  else if u = 'A' then some 9
  else if u = 'B' then some 11
  else none

/-- `parse_note` (lines 77–113): convert a note string or number to a MIDI
note number.  `none` input models Python `None`.  The `.error .indexError`
branch models the uncaught `note_str[i]` on a string that is empty after
stripping. -/
def parse_note (note : Option String) : Except PyError ℤ :=
  match note with
  | none => .ok 60
  | some str =>
    match pythonInt str.data with
    | some n => .ok n
    | none =>
      match stripPyList str.data with
      | [] => .error .indexError
      | c :: rest =>
        match noteSemitone (pyUpper c) with
        | none => .ok 60
        | some note0 =>
          let step : ℤ × List Char :=
            match rest with
            | [] => (note0, [])
            | c2 :: r =>
              if c2 = '#' then (note0 + 1, r)
              else if pyLower c2 = 'b' then (note0 - 1, r)
              else (note0, c2 :: r)
          .ok (step.1 + ((pythonInt step.2).getD 4 + 1) * 12)

/-- Python `s.replace("db", "")`: left-to-right removal of every
(non-overlapping) occurrence of `"db"`. -/
def replaceDb : List Char → List Char
  | [] => []
  | [c] => [c]
  | c1 :: c2 :: rest =>
    if c1 = 'd' ∧ c2 = 'b' then replaceDb rest
    else c1 :: replaceDb (c2 :: rest)

/-- `parse_db` (lines 116–124): strip, lowercase, delete every `"db"`
occurrence, then `float`, defaulting to `0.0` on failure or `None`. -/
def parse_db (s : Option String) : ℚ :=
  match s with
  | none => 0
  | some str =>
    (pythonFloat (replaceDb (pyLowerStr (stripPyList str.data)))).getD 0

/-- Python `"ms" in s`. -/
def hasMs : List Char → Bool
  | [] => false
  | [_] => false
  | c1 :: c2 :: rest => (c1 = 'm' && c2 = 's') || hasMs (c2 :: rest)

/-- Python `s.replace("ms", "")`. -/
def replaceMs : List Char → List Char
  | [] => []
  | [c] => [c]
  | c1 :: c2 :: rest =>
    if c1 = 'm' ∧ c2 = 's' then replaceMs rest
    else c1 :: replaceMs (c2 :: rest)

/-- `parse_time` (lines 127–152): `"…ms"` is milliseconds, `"…s"` is
seconds, a bare number is seconds; any failure and `None` give `0.0`. -/
def parse_time (s : Option String) : ℚ :=
  match s with
  | none => 0
  | some str =>
    let t := pyLowerStr (stripPyList str.data)
    if hasMs t then
      match pythonFloat (stripPyList (replaceMs t)) with
      | some v => v / 1000
      | none => 0
    else if t.any (fun c => c = 's') then
      match pythonFloat (stripPyList (t.filter (fun c => !(c = 's')))) with
      | some v => v
      | none => 0
    else (pythonFloat t).getD 0

/-!  ## The document model

`xml.etree.ElementTree` nodes: a tag, an attribute dictionary and child
elements in document order.  A mutual inductive (rather than `List Xml`
children) keeps all recursions structural. -/

mutual
inductive Xml : Type where
  | node (tag : String) (attrs : List (String × String)) (children : XmlForest)
inductive XmlForest : Type where
  | nil : XmlForest
  | cons (head : Xml) (tail : XmlForest) : XmlForest
end

def XmlForest.toList : XmlForest → List Xml
  | .nil => []
  | .cons x xs => x :: xs.toList

def Xml.tag : Xml → String
  | .node t _ _ => t

def Xml.attrs : Xml → List (String × String)
  | .node _ a _ => a

def Xml.children : Xml → List Xml
  | .node _ _ cs => cs.toList

/-- `elem.get(k)`: attribute lookup, `none` when absent. -/
def Xml.attr (n : Xml) (k : String) : Option String :=
  (n.attrs.find? (fun a => a.1 = k)).map (fun a => a.2)

/-- `elem.get(k, d)`: attribute lookup with a default. -/
def Xml.attrD (n : Xml) (k : String) (d : String) : String :=
  (n.attr k).getD d

/-- `elem.findall(t)`: direct children with the given tag, in document
order. -/
def Xml.childrenTagged (n : Xml) (t : String) : List Xml :=
  n.children.filter (fun c => c.tag == t)

mutual
/-- All proper descendants of a node, in document (preorder) order. -/
def Xml.descendants : Xml → List Xml
  | .node _ _ cs => XmlForest.descList cs
def XmlForest.descList : XmlForest → List Xml
  | .nil => []
  | .cons x xs => x :: (x.descendants ++ xs.descList)
end

/-- `root.findall(".//t")`: all descendants with the given tag, in
document order. -/
def Xml.findallDesc (n : Xml) (t : String) : List Xml :=
  n.descendants.filter (fun c => c.tag == t)

/-!  ## The data model (the four dataclasses)  -/

/-- `SampleMapping` (lines 21–36): a single sample with its key/velocity
mapping. -/
structure SampleMapping : Type where
  path : String
  root_note : ℤ
  lo_note : ℤ
  hi_note : ℤ
  lo_vel : ℤ := 0
  hi_vel : ℤ := 127
  volume_db : ℚ := 0
  pan : ℚ := 0
  tune_cents : ℤ := 0
  loop_enabled : Bool := false
  loop_start : ℤ := 0
  loop_end : ℤ := 0
  loop_crossfade : ℤ := 0
deriving DecidableEq

/-- `GroupSettings` (lines 38–45): settings shared by a group of samples. -/
structure GroupSettings : Type where
  attack : ℚ := 0
  decay : ℚ := 0
  sustain : ℚ := 1
  release : ℚ := 3/10
  volume_db : ℚ := 0
deriving DecidableEq

/-- `EffectSettings` (lines 47–57): effect chain settings. -/
structure EffectSettings : Type where
  filter_type : Option String := none
  filter_freq : ℚ := 22000
  filter_res : ℚ := 707/1000
  reverb_wet : ℚ := 0
  reverb_size : ℚ := 1/2
  chorus_mix : ℚ := 0
  chorus_rate : ℚ := 1/5
  chorus_depth : ℚ := 1/5
deriving DecidableEq

/-- `InstrumentPreset` (lines 59–74): complete instrument preset (with the
`__post_init__` defaults). -/
structure InstrumentPreset : Type where
  name : String
  source_format : String := "DecentSampler"
  samples : List SampleMapping := []
  groups : List GroupSettings := []
  effects : EffectSettings := {}
deriving DecidableEq

/-!  ## The preset parser (`parse_dspreset`, lines 155–244)  -/

/-- Sequential effectful map over a list, stopping at the first raised
exception — the shape of every `for` loop in `parse_dspreset`. -/
def exMapM (f : α → Except PyError β) : List α → Except PyError (List β)
  | [] => .ok []
  | a :: as => do
    let b ← f a
    let bs ← exMapM f as
    .ok (b :: bs)

/-- `float(elem.get(k, d))` where `d` is already a Python float: a present
attribute is converted with `float()` (raising `ValueError` on bad input),
an absent one yields the default. -/
def floatAttr (n : Xml) (k : String) (d : ℚ) : Except PyError ℚ :=
  match n.attr k with
  | some s =>
    match pythonFloat s.data with
    | some v => .ok v
    | none => .error .valueError
  | none => .ok d

/-- `int(elem.get(k, d))` where `d` is already a Python int. -/
def intAttr (n : Xml) (k : String) (d : ℤ) : Except PyError ℤ :=
  match n.attr k with
  | some s =>
    match pythonInt s.data with
    | some v => .ok v
    | none => .error .valueError
  | none => .ok d

/-- Lines 169–175: the `GroupSettings` record built from a `<groups>`
collection element's own attributes (global defaults: attack `"0.0"`,
decay `"0.0"`, sustain `1.0`, release `"0.3"`, volume `"0dB"`). -/
def collectionGS (c : Xml) : Except PyError GroupSettings := do
  let attack := parse_time (some (c.attrD "attack" "0.0"))
  let decay := parse_time (some (c.attrD "decay" "0.0"))
  let sustain ← floatAttr c "sustain" 1
  let release := parse_time (some (c.attrD "release" "0.3"))
  let volume_db := parse_db (some (c.attrD "volume" "0dB"))
  .ok { attack := attack, decay := decay, sustain := sustain,
        release := release, volume_db := volume_db }

/-- Lines 187–219: one `<sample>` element resolved into a `SampleMapping`;
`group_volume` is the enclosing `<group>`'s parsed volume, added to the
sample's own parsed volume. -/
def parseSample (group_volume : ℚ) (s : Xml) : Except PyError SampleMapping := do
  let path := s.attrD "path" ""
  let root_note ← intAttr s "rootNote" 60
  let lo_note ← intAttr s "loNote" root_note
  let hi_note ← intAttr s "hiNote" root_note
  let lo_vel ← intAttr s "loVel" 0
  let hi_vel ← intAttr s "hiVel" 127
  let volume := parse_db (some (s.attrD "volume" "0dB"))
  let pan ← floatAttr s "pan" 0
  let tune ← intAttr s "tuning" 0
  let loop_enabled : Bool := pyLowerStr (s.attrD "loopEnabled" "false").data == "true".data
  let loop_start ← intAttr s "loopStart" 0
  let loop_end ← intAttr s "loopEnd" 0
  let loop_xfade ← intAttr s "loopCrossfade" 0
  .ok { path := path, root_note := root_note, lo_note := lo_note,
        hi_note := hi_note, lo_vel := lo_vel, hi_vel := hi_vel,
        volume_db := volume + group_volume, pan := pan, tune_cents := tune,
        loop_enabled := loop_enabled, loop_start := loop_start,
        loop_end := loop_end, loop_crossfade := loop_xfade }

/-- Lines 179–219: one `<group>` element: its volume is parsed leniently;
its `attack`/`decay`/`release` are resolved (lazily via truthiness) and its
`sustain` through a bare `float()` call — all four results are never used
— and its `<sample>` children are mapped. -/
def parseGroup (gs : GroupSettings) (g : Xml) : Except PyError (List SampleMapping) := do
  let group_volume := parse_db (some (g.attrD "volume" "0dB"))
  let _group_attack :=
    match g.attr "attack" with
    | some a => if a = "" then gs.attack else parse_time (some a)
    | none => gs.attack
  let _group_decay :=
    match g.attr "decay" with
    | some a => if a = "" then gs.decay else parse_time (some a)
    | none => gs.decay
  let _group_sustain ← floatAttr g "sustain" gs.sustain
  let _group_release :=
    match g.attr "release" with
    | some a => if a = "" then gs.release else parse_time (some a)
    | none => gs.release
  exMapM (parseSample group_volume) (g.childrenTagged "sample")

/-- One `<groups>` collection: its `GroupSettings` record plus the sample
mappings of all its `<group>` children. -/
def parseCollection (c : Xml) : Except PyError (GroupSettings × List SampleMapping) := do
  let gs ← collectionGS c
  let sampless ← exMapM (parseGroup gs) (c.childrenTagged "group")
  .ok (gs, sampless.flatten)

/-- `effect.get('type', '').lower()` — the string an `<effect>` element is
dispatched on (line 224). -/
def effType (e : Xml) : List Char :=
  pyLowerStr (e.attrD "type" "").data

/-- Lines 223–240: one `<effect>` element applied to the accumulated
`EffectSettings`, dispatching on the lowercased `type` attribute;
unrecognized types fall through. -/
def applyEffect (eff : EffectSettings) (e : Xml) : Except PyError EffectSettings := do
  let t := effType e
  if t = "lowpass".data then do
    let freq ← floatAttr e "frequency" 22000
    let res ← floatAttr e "resonance" (707/1000)
    .ok { eff with filter_type := some "lowpass", filter_freq := freq, filter_res := res }
  else if t = "highpass".data then do
    let freq ← floatAttr e "frequency" 20
    let res ← floatAttr e "resonance" (707/1000)
    .ok { eff with filter_type := some "highpass", filter_freq := freq, filter_res := res }
  else if t = "reverb".data then do
    let wet ← floatAttr e "wetLevel" 0
    let size ← floatAttr e "roomSize" (1/2)
    .ok { eff with reverb_wet := wet, reverb_size := size }
  else if t = "chorus".data then do
    let mix ← floatAttr e "mix" 0
    let rate ← floatAttr e "modRate" (1/5)
    let depth ← floatAttr e "modDepth" (1/5)
    .ok { eff with chorus_mix := mix, chorus_rate := rate, chorus_depth := depth }
  else .ok eff

/-- The `for effect in root.findall('.//effect')` loop, folding over the
single `EffectSettings` record. -/
def applyEffects (eff : EffectSettings) : List Xml → Except PyError EffectSettings
  | [] => .ok eff
  | e :: es => do
    let eff' ← applyEffect eff e
    applyEffects eff' es

/-- `parse_dspreset` (lines 155–244).  Its input is the parse outcome of
`ET.parse(filepath)` — `none` models a document that is not well-formed
markup (`xml.etree`'s `ParseError`) — plus the file stem used as the
preset name. -/
def parse_dspreset (name : String) : Option Xml → Except PyError InstrumentPreset
  | none => .error .parseError
  | some root => do
    let colls ← exMapM parseCollection (root.findallDesc "groups")
    let effects ← applyEffects {} (root.findallDesc "effect")
    .ok { name := name, source_format := "DecentSampler",
          samples := (colls.map (fun r => r.2)).flatten,
          groups := colls.map (fun r => r.1),
          effects := effects }

/-!  ## Serializer, modelled deserializer and batch driver  -/

/-- The JSON-serializable dictionary emitted by `preset_to_dict`
(lines 247–255): `asdict` turns each dataclass into a dictionary with the
same fields, so the dataclass records themselves stand for the
sub-dictionaries. -/
structure PresetDict : Type where
  name : String
  source_format : String
  samples : List SampleMapping
  envelope : GroupSettings
  effects : EffectSettings
deriving DecidableEq

/-- `preset_to_dict` (lines 247–255): the envelope is the first group's
settings, or a default `GroupSettings()` when there is no group. -/
def preset_to_dict (p : InstrumentPreset) : PresetDict :=
  { name := p.name
    source_format := p.source_format
    samples := p.samples
    envelope := match p.groups with
      | [] => {}
      | g :: _ => g
    effects := p.effects }

/-- Modelled from the spec: the repository contains no deserializer — §8's
round-trip property `deserialize(serialize(parse(doc))) == parse(doc)`
presumes one.  Following §6's canonical output layout, it reads the
serialized dictionary back into an `InstrumentPreset`, the single emitted
`envelope` becoming the preset's group list. -/
def deserialize (d : PresetDict) : InstrumentPreset :=
  { name := d.name
    source_format := d.source_format
    samples := d.samples
    groups := [d.envelope]
    effects := d.effects }

/-- `scan_folder`'s loop (lines 296–310): each discovered file is parsed
independently; a successful parse has its `name` overwritten with the file
stem and is appended, a raising parse is skipped.  A file is modelled as
its stem plus the outcome of reading it as markup. -/
def scanFolderLoop : List (String × Option Xml) → List InstrumentPreset → List InstrumentPreset
  | [], acc => acc
  | (stem, doc) :: rest, acc =>
    match parse_dspreset stem doc with
    | .ok p => scanFolderLoop rest (acc ++ [{ p with name := stem }])
    | .error _ => scanFolderLoop rest acc

/-- `scan_folder` (lines 296–310), over the discovered files in discovery
order. -/
def scan_folder (files : List (String × Option Xml)) : List InstrumentPreset :=
  scanFolderLoop files []

/-- The four per-group envelope attributes read (and dropped) at lines
181–184. -/
def adsrKeys : List String := ["attack", "decay", "sustain", "release"]

mutual
/-- Removes the `attack`/`decay`/`sustain`/`release` attributes from every
`<group>` element of a document (used to state that they do not influence
the parse result). -/
def stripGroupADSR : Xml → Xml
  | .node t attrs cs =>
    .node t
      (if t = "group" then attrs.filter (fun a => !(adsrKeys.contains a.1)) else attrs)
      (stripForest cs)
def stripForest : XmlForest → XmlForest
  | .nil => .nil
  | .cons x xs => .cons (stripGroupADSR x) (stripForest xs)
end

/-!  ## Auxiliary definitions for the claim statements  -/

/-- Python `"db" in s` (does `"db"` occur as a substring?). -/
def hasDb : List Char → Bool
  | [] => false
  | [_] => false
  | c1 :: c2 :: rest => (c1 = 'd' && c2 = 'b') || hasDb (c2 :: rest)

/-- The note letters accepted by `parse_note` (the keys of `note_names`,
case-insensitively). -/
def noteLetters : List Char :=
  ['C', 'c', 'D', 'd', 'E', 'e', 'F', 'f', 'G', 'g', 'A', 'a', 'B', 'b']

/-- Dropping trailing Python whitespace (the second half of
`str.strip()`). -/
def dropTrail (l : List Char) : List Char :=
  (l.reverse.dropWhile isPySpace).reverse

/-- A well-formed document whose `<groups>` element carries a non-numeric
`sustain` attribute (for C1). -/
def C1doc : Xml :=
  .node "DecentSampler" [] (.cons (.node "groups" [("sustain", "abc")] .nil) .nil)

/-- A well-formed document with no `<groups>` element at all (for C3). -/
def C3doc0 : Xml := .node "DecentSampler" [] .nil

/-- A well-formed document with one attribute-less `<groups>` element
(for C3). -/
def C3doc1 : Xml :=
  .node "DecentSampler" [] (.cons (.node "groups" [] .nil) .nil)

/-- A `<group volume="2dB">` element with a single `volume="-3dB"` sample
(for C4). -/
def C4group : Xml :=
  .node "group" [("volume", "2dB")]
    (.cons (.node "sample" [("volume", "-3dB"), ("rootNote", "60"), ("path", "a.wav")] .nil)
      .nil)

/-- A document with a `volume="-3dB"` sample inside a `volume="2dB"` group
(for C4). -/
def C4doc : Xml :=
  .node "DecentSampler" []
    (.cons (.node "groups" [] (.cons C4group .nil)) .nil)

/-- A document with two `reverb` effect elements with different `wetLevel`
values (for C7). -/
def C7doc : Xml :=
  .node "DecentSampler" []
    (.cons (.node "effect" [("type", "reverb"), ("wetLevel", "0.3")] .nil)
      (.cons (.node "effect" [("type", "reverb"), ("wetLevel", "0.7")] .nil) .nil))

/-- A document whose `<group>` element carries (unused) envelope
attributes (for the C9 witness). -/
def C9doc : Xml :=
  .node "DecentSampler" []
    (.cons (.node "groups" [] (.cons (.node "group" [("attack", "9")] .nil) .nil)) .nil)

example : parse_note (some "C4") = .ok 60 := by rfl
example : parse_note (some "F#3") = .ok 54 := by rfl
example : parse_note (some "Bb5") = .ok 82 := by rfl
example : parse_note (some "77") = .ok 77 := by rfl
example : parse_note (some "") = .error .indexError := by rfl
example : parse_note none = .ok 60 := by rfl
example : parse_db (some "-3dB") = -3 := by rfl
example : parse_db none = 0 := by rfl
example : parse_db (some "3db4") = 34 := by rfl
example : parse_time (some "garbage") = 0 := by rfl
example : parse_db (some "0.0dB") = 0 := by
  simp +decide [parse_db, pythonFloat, pyFloatCore, parseSignedMantissa, parseMantissa,
    splitOnExp, splitOnDot, decDigits?, digitsToNat, digitVal, stripPyList, pyLowerStr,
    pyLower, replaceDb, isPySpace, isDigitCh]
example : parse_time (some "100ms") = 1/10 := by
  simp +decide [parse_time, pythonFloat, pyFloatCore, parseSignedMantissa, parseMantissa,
    splitOnExp, splitOnDot, decDigits?, digitsToNat, digitVal, stripPyList, pyLowerStr,
    pyLower, replaceMs, hasMs, isPySpace, isDigitCh]
  norm_num
example : parse_time (some "1.5s") = 3/2 := by
  simp +decide [parse_time, pythonFloat, pyFloatCore, parseSignedMantissa, parseMantissa,
    splitOnExp, splitOnDot, decDigits?, digitsToNat, digitVal, stripPyList, pyLowerStr,
    pyLower, replaceMs, hasMs, isPySpace, isDigitCh]
  norm_num
example : parse_time (some "0.5") = 1/2 := by
  simp +decide [parse_time, pythonFloat, pyFloatCore, parseSignedMantissa, parseMantissa,
    splitOnExp, splitOnDot, decDigits?, digitsToNat, digitVal, stripPyList, pyLowerStr,
    pyLower, replaceMs, hasMs, isPySpace, isDigitCh]
  norm_num

/-!  ## General lemmas about the embedding's building blocks  -/

theorem except_bind_ok {α β : Type} {x : Except PyError α} {f : α → Except PyError β} {b : β} :
    x >>= f = .ok b ↔ ∃ a, x = .ok a ∧ f a = .ok b := by
  cases x <;> simp [Bind.bind, Except.bind]

theorem char_toNat_inj {a b : Char} (h : a.toNat = b.toNat) : a = b := by
  rw [← Char.ofNat_toNat a, h, Char.ofNat_toNat]

/-- The facts about a decimal digit character used when tracing
`parse_note`. -/
theorem digit_facts {c : Char} (h : isDigitCh c = true) :
    isPySpace c = false ∧ c ≠ '+' ∧ c ≠ '-' ∧ c ≠ '#' ∧ c ≠ 'b' ∧ pyLower c = c := by
  have hb : 48 ≤ c.toNat ∧ c.toNat ≤ 57 := by simpa [isDigitCh] using h
  refine ⟨?_, ?_, ?_, ?_, ?_, ?_⟩
  · simp only [isPySpace, decide_eq_false_iff_not]; omega
  · rintro rfl; exact absurd h (by decide)
  · rintro rfl; exact absurd h (by decide)
  · rintro rfl; exact absurd h (by decide)
  · rintro rfl; exact absurd h (by decide)
  · unfold pyLower
    rw [if_neg (by omega : ¬(65 ≤ c.toNat ∧ c.toNat ≤ 90))]

theorem dropWhile_of_all_not {p : Char → Bool} {l : List Char}
    (h : l.all (fun c => !p c) = true) : l.dropWhile p = l := by
  cases l with
  | nil => rfl
  | cons c rest =>
    simp only [List.all_cons, Bool.and_eq_true, Bool.not_eq_true'] at h
    simp [List.dropWhile_cons, h.1]

theorem stripPyList_eq_self {l : List Char} (h : l.all (fun c => !isPySpace c) = true) :
    stripPyList l = l := by
  unfold stripPyList
  rw [dropWhile_of_all_not h, dropWhile_of_all_not (by simpa using h),
    List.reverse_reverse]

theorem dropTrail_cons_of_not_space {c : Char} {l : List Char} (h : isPySpace c = false) :
    ∃ l', dropTrail (c :: l) = c :: l' := by
  unfold dropTrail
  rw [show (c :: l).reverse = l.reverse ++ [c] by simp, List.dropWhile_append]
  by_cases he : (l.reverse.dropWhile isPySpace).isEmpty
  · rw [if_pos he]
    exact ⟨[], by simp [List.dropWhile_cons, h]⟩
  · rw [if_neg he, List.reverse_append]
    exact ⟨(l.reverse.dropWhile isPySpace).reverse, by simp⟩

theorem stripPyList_cons_of_head {c : Char} {l : List Char} (h : isPySpace c = false) :
    ∃ l', stripPyList (c :: l) = c :: l' := by
  rw [show stripPyList (c :: l) = dropTrail (c :: l) by
    simp [stripPyList, dropTrail, List.dropWhile_cons, h]]
  exact dropTrail_cons_of_not_space h

theorem all_digits_no_space {l : List Char} (h : l.all isDigitCh = true) :
    l.all (fun c => !isPySpace c) = true := by
  simp only [List.all_eq_true] at h ⊢
  intro x hx
  simp [Bool.not_eq_true', (digit_facts (h x hx)).1]

/-- `int()` on a nonempty all-digit string returns its decimal value. -/
theorem pythonInt_all_digits {l : List Char} (h1 : l ≠ []) (h2 : l.all isDigitCh = true) :
    pythonInt l = some ((digitsToNat l : ℤ)) := by
  unfold pythonInt
  rw [stripPyList_eq_self (all_digits_no_space h2)]
  cases l with
  | nil => exact absurd rfl h1
  | cons c rest =>
    have hc : isDigitCh c = true := by
      simp only [List.all_cons, Bool.and_eq_true] at h2; exact h2.1
    have hf := digit_facts hc
    simp only [pyIntCore]
    rw [if_neg hf.2.1, if_neg hf.2.2.1]
    unfold decDigits?
    rw [if_neg (by simp), if_pos h2]
    rfl

/-- `int()` fails on a string whose first character is not whitespace, a
sign or a digit. -/
theorem pythonInt_cons_none {c : Char} {l : List Char} (hws : isPySpace c = false)
    (hp : c ≠ '+') (hm : c ≠ '-') (hd : isDigitCh c = false) :
    pythonInt (c :: l) = none := by
  obtain ⟨l', hl'⟩ := stripPyList_cons_of_head hws
  unfold pythonInt
  rw [hl']
  simp only [pyIntCore]
  rw [if_neg hp, if_neg hm]
  unfold decDigits?
  rw [if_neg (by simp)]
  simp [List.all_cons, hd]

theorem string_mk_data (l : List Char) : (String.mk l).data = l := rfl

/-- Tracing `parse_note` on a `<letter><#|b|B>?<digits>` input. -/
theorem parse_note_pattern {c : Char} {sem accVal : ℤ} {accStr octStr : List Char}
    (hsem : noteSemitone (pyUpper c) = some sem)
    (hnws : isPySpace c = false) (hnd : isDigitCh c = false)
    (hnp : c ≠ '+') (hnm : c ≠ '-')
    (hacc : accStr = [] ∧ accVal = 0 ∨ accStr = ['#'] ∧ accVal = 1 ∨
            (accStr = ['b'] ∨ accStr = ['B']) ∧ accVal = -1)
    (hoct1 : octStr ≠ []) (hoct2 : octStr.all isDigitCh = true) :
    parse_note (some (String.mk (c :: (accStr ++ octStr)))) =
      .ok (sem + accVal + ((digitsToNat octStr : ℤ) + 1) * 12) := by
  have hint : pythonInt (c :: (accStr ++ octStr)) = none :=
    pythonInt_cons_none hnws hnp hnm hnd
  have hall : (c :: (accStr ++ octStr)).all (fun x => !isPySpace x) = true := by
    simp only [List.all_cons, List.all_append, Bool.and_eq_true, Bool.not_eq_true']
    refine ⟨hnws, ?_, ?_⟩
    · rcases hacc with ⟨rfl, _⟩ | ⟨rfl, _⟩ | ⟨rfl | rfl, _⟩ <;> decide
    · simpa [Bool.not_eq_true'] using all_digits_no_space hoct2
  have hstrip : stripPyList (c :: (accStr ++ octStr)) = c :: (accStr ++ octStr) :=
    stripPyList_eq_self hall
  obtain ⟨oc, orest, rfl⟩ : ∃ oc orest, octStr = oc :: orest := by
    cases octStr with
    | nil => exact absurd rfl hoct1
    | cons oc orest => exact ⟨oc, orest, rfl⟩
  have hocd : isDigitCh oc = true := by
    simp only [List.all_cons, Bool.and_eq_true] at hoct2; exact hoct2.1
  have hoint : pythonInt (oc :: orest) = some ((digitsToNat (oc :: orest) : ℤ)) :=
    pythonInt_all_digits (by simp) hoct2
  have hf := digit_facts hocd
  rcases hacc with ⟨rfl, rfl⟩ | ⟨rfl, rfl⟩ | ⟨hbB, rfl⟩
  · simp only [List.nil_append] at hint hstrip
    simp only [parse_note, string_mk_data, List.nil_append, hint, hstrip, hsem]
    rw [if_neg hf.2.2.2.1, hf.2.2.2.2.2, if_neg hf.2.2.2.2.1]
    simp only [hoint, Option.getD_some, Except.ok.injEq]
    ring
  · simp only [List.cons_append, List.nil_append] at hint hstrip
    simp only [parse_note, string_mk_data, List.cons_append, List.nil_append,
      hint, hstrip, hsem]
    simp only [if_true, hoint, Option.getD_some, Except.ok.injEq]
  · rcases hbB with rfl | rfl <;>
      simp only [List.cons_append, List.nil_append] at hint hstrip <;>
      simp only [parse_note, string_mk_data, List.cons_append, List.nil_append,
        hint, hstrip, hsem] <;>
      rw [if_neg (by decide), if_pos (by decide)] <;>
      simp only [hoint, Option.getD_some, Except.ok.injEq] <;>
      ring

/-- C6: for every note-name input `<letter><#|b>?<octave>` (letter and
flat marker case-insensitive), `parse_note` returns
`semitone(letter) + accidental + (octave+1)*12` with the table C=0, D=2,
E=4, F=5, G=7, A=9, B=11; a decimal integer string returns that integer;
a malformed octave suffix is treated as octave 4 (instance `"C#x"`); and
`parse_note("C4") = 60`, `parse_note("F#3") = 54`, `parse_note("Bb5") = 82`,
`parse_note("77") = 77`. -/
theorem claim_C6 :
    (∀ (c : Char) (sem accVal : ℤ) (accStr octStr : List Char),
      c ∈ noteLetters →
      noteSemitone (pyUpper c) = some sem →
      (accStr = [] ∧ accVal = 0 ∨ accStr = ['#'] ∧ accVal = 1 ∨
        (accStr = ['b'] ∨ accStr = ['B']) ∧ accVal = -1) →
      octStr ≠ [] → octStr.all isDigitCh = true →
      parse_note (some (String.mk (c :: (accStr ++ octStr)))) =
        .ok (sem + accVal + ((digitsToNat octStr : ℤ) + 1) * 12))
    ∧ (∀ (l : List Char) (n : ℤ),
        pythonInt l = some n → parse_note (some (String.mk l)) = .ok n)
    ∧ parse_note (some "C4") = .ok 60
    ∧ parse_note (some "F#3") = .ok 54
    ∧ parse_note (some "Bb5") = .ok 82
    ∧ parse_note (some "77") = .ok 77
    ∧ parse_note (some "C#x") = .ok 61 := by
  refine ⟨?_, ?_, rfl, rfl, rfl, rfl, rfl⟩
  · intro c sem accVal accStr octStr hc hsem hacc h1 h2
    fin_cases hc <;>
      exact parse_note_pattern hsem (by decide) (by decide) (by decide) (by decide)
        hacc h1 h2
  · intro l n h
    simp only [parse_note, string_mk_data, h]

/-- C6 witness: the general pattern theorem applied at `"F#3"` and the
integer branch at `"77"`. -/
theorem claim_C6_witness :
    parse_note (some (String.mk ('F' :: (['#'] ++ ['3'])))) =
      .ok (5 + 1 + ((digitsToNat ['3'] : ℤ) + 1) * 12)
    ∧ parse_note (some (String.mk ['7', '7'])) = .ok 77 :=
  ⟨claim_C6.1 'F' 5 1 ['#'] ['3'] (by decide) (by decide)
      (Or.inr (Or.inl ⟨rfl, rfl⟩)) (by decide) (by decide),
    claim_C6.2.1 ['7', '7'] 77 (by decide)⟩

/-- C2: `parse_db` and `parse_time` are total by construction (they return
plain values), and `parse_note` handles absent input — but, contrary to the
claim, `parse_note` raises an uncaught `IndexError` on the empty string
(and on whitespace-only strings): the unguarded `note_str[i]` at line 93
indexes into the empty stripped string.  The spec's `parseNote("") == 60`
is the intent; the code is a slip. -/
theorem claim_C2_bug :
    parse_note (some "") = .error .indexError
    ∧ parse_note (some " ") = .error .indexError
    ∧ parse_note none = .ok 60 :=
  ⟨rfl, rfl, rfl⟩

/-!  ## `parse_db` suffix analysis (C5)  -/

theorem replaceDb_no_db : ∀ {l : List Char}, hasDb l = false → replaceDb l = l
  | [], _ => rfl
  | [_], _ => rfl
  | c1 :: c2 :: rest, h => by
    have h2 : hasDb (c2 :: rest) = false := by
      simp only [hasDb, Bool.or_eq_false_iff] at h
      exact h.2
    have hc : ¬(c1 = 'd' ∧ c2 = 'b') := by
      rintro ⟨rfl, rfl⟩
      simp [hasDb] at h
    simp only [replaceDb]
    rw [if_neg hc, replaceDb_no_db h2]

theorem replaceDb_strip_suffix :
    ∀ {core : List Char}, hasDb core = false → replaceDb (core ++ ['d', 'b']) = core
  | [], _ => by decide
  | [c], _ => by
    have hc : ¬(c = 'd' ∧ 'd' = 'b') := by
      rintro ⟨_, hbad⟩
      exact absurd hbad (by decide)
    simp only [List.cons_append, List.nil_append, replaceDb]
    rw [if_neg hc]
    simp +decide [replaceDb]
  | c1 :: c2 :: rest, h => by
    have h2 : hasDb (c2 :: rest) = false := by
      simp only [hasDb, Bool.or_eq_false_iff] at h
      exact h.2
    have hc : ¬(c1 = 'd' ∧ c2 = 'b') := by
      rintro ⟨rfl, rfl⟩
      simp [hasDb] at h
    simp only [List.cons_append, replaceDb]
    rw [if_neg hc]
    have := replaceDb_strip_suffix h2
    simp only [List.cons_append, List.append_eq] at this ⊢
    rw [this]

/-- C5 corrected: `parse_db` removes every case-insensitive occurrence of
`"db"` (after stripping whitespace and lowercasing), not only a trailing
suffix.  On inputs where `"db"` occurs at most once and only as a trailing
suffix — or not at all — the original description holds: the remainder is
parsed as a float with default `0.0`; absent input gives `0.0`; and
`parseDb("-3dB") = -3.0`, `parseDb("0.0dB") = 0.0`. -/
theorem claim_C5 :
    (∀ (s : String) (core : List Char),
      (pyLowerStr (stripPyList s.data) = core ++ ['d', 'b'] ∨
        pyLowerStr (stripPyList s.data) = core) →
      hasDb core = false →
      parse_db (some s) = (pythonFloat core).getD 0)
    ∧ parse_db none = 0
    ∧ parse_db (some "-3dB") = -3
    ∧ parse_db (some "0.0dB") = 0 := by
  refine ⟨?_, rfl, rfl, ?_⟩
  · intro s core hdisj hcore
    simp only [parse_db]
    rcases hdisj with h | h
    · rw [h, replaceDb_strip_suffix hcore]
    · rw [h, replaceDb_no_db hcore]
  · simp +decide [parse_db, pythonFloat, pyFloatCore, parseSignedMantissa, parseMantissa,
      splitOnExp, splitOnDot, decDigits?, digitsToNat, digitVal, stripPyList, pyLowerStr,
      pyLower, replaceDb, isPySpace, isDigitCh]

/-- C5 witness: the suffix-only characterization applied at `"-3dB"`. -/
theorem claim_C5_witness :
    parse_db (some "-3dB") = (pythonFloat ['-', '3']).getD 0 :=
  claim_C5.1 "-3dB" ['-', '3'] (Or.inl (by decide)) (by decide)

/-- C5 counterexample: `"3db4"` has no trailing `"db"` suffix, so the
claim says it is unparseable and yields `0.0`; the code removes the inner
`"db"` and returns `34.0`. -/
theorem claim_C5_counterexample :
    parse_db (some "3db4") = 34 ∧ (34 : ℚ) ≠ 0 :=
  ⟨rfl, by norm_num⟩

/-!  ## Helper evaluations of the scalar-parser defaults  -/

theorem parse_time_default_zero : parse_time (some "0.0") = 0 := by
  simp +decide [parse_time, pythonFloat, pyFloatCore, parseSignedMantissa, parseMantissa,
    splitOnExp, splitOnDot, decDigits?, digitsToNat, digitVal, stripPyList, pyLowerStr,
    pyLower, replaceMs, hasMs, isPySpace, isDigitCh]

theorem parse_time_default_release : parse_time (some "0.3") = 3/10 := by
  simp +decide [parse_time, pythonFloat, pyFloatCore, parseSignedMantissa, parseMantissa,
    splitOnExp, splitOnDot, decDigits?, digitsToNat, digitVal, stripPyList, pyLowerStr,
    pyLower, replaceMs, hasMs, isPySpace, isDigitCh]

theorem parse_db_default : parse_db (some "0dB") = 0 := by
  simp +decide [parse_db, pythonFloat, pyFloatCore, parseSignedMantissa, parseMantissa,
    splitOnExp, splitOnDot, decDigits?, digitsToNat, digitVal, stripPyList, pyLowerStr,
    pyLower, replaceDb, isPySpace, isDigitCh]

/-!  ## C1: which attribute-level issues raise  -/

/-- C1 counterexample: a well-formed document whose `<groups>` element has
the non-numeric attribute `sustain="abc"` makes `parse_dspreset` raise a
`ValueError` (the bare `float()` at line 172), so not every well-formed
document yields a preset. -/
theorem claim_C1_counterexample :
    parse_dspreset "preset" (some C1doc) = .error .valueError := rfl

/-- C1 corrected: a structurally malformed document still raises the
distinct parse error; attribute-level issues in the attributes routed
through the lenient scalar parsers (`attack`, `decay`, `release` via
`parse_time`, `volume` via `parse_db`) are absorbed for every value; but an
attribute converted with a bare `float()`/`int()` — here `sustain` —
raises a `ValueError` whenever its value is not numeric. -/
theorem claim_C1_amended :
    parse_dspreset "preset" none = .error .parseError
    ∧ (∀ v : String,
        parse_dspreset "preset"
          (some (.node "DecentSampler" []
            (.cons (.node "groups" [("attack", v), ("release", v), ("volume", v)] .nil)
              .nil))) =
        .ok { name := "preset",
              groups := [{ attack := parse_time (some v), decay := 0, sustain := 1,
                           release := parse_time (some v),
                           volume_db := parse_db (some v) }] })
    ∧ (∀ v : String, pythonFloat v.data = none →
        parse_dspreset "preset"
          (some (.node "DecentSampler" [] (.cons (.node "groups" [("sustain", v)] .nil) .nil))) =
        .error .valueError) := by
  refine ⟨rfl, ?_, ?_⟩
  · intro v
    simp +decide [parse_dspreset, Xml.findallDesc, Xml.descendants, XmlForest.descList,
      Xml.tag, exMapM, parseCollection, collectionGS, floatAttr, Xml.attrD, Xml.attr,
      Xml.attrs, Xml.childrenTagged, Xml.children, XmlForest.toList, applyEffects,
      List.find?, parse_time_default_zero, parse_db_default, bind, Except.bind]
  · intro v h
    simp +decide [parse_dspreset, Xml.findallDesc, Xml.descendants, XmlForest.descList,
      Xml.tag, exMapM, parseCollection, collectionGS, floatAttr, Xml.attrD, Xml.attr,
      Xml.attrs, List.find?, h, bind, Except.bind]

/-- C1 witness: the absorbed-attributes branch at the garbage value
`"zzz"` and the raising branch at the non-numeric sustain `"abc"`. -/
theorem claim_C1_witness :
    parse_dspreset "preset"
      (some (.node "DecentSampler" []
        (.cons (.node "groups" [("attack", "zzz"), ("release", "zzz"), ("volume", "zzz")] .nil)
          .nil))) =
      .ok { name := "preset",
            groups := [{ attack := parse_time (some "zzz"), decay := 0, sustain := 1,
                         release := parse_time (some "zzz"),
                         volume_db := parse_db (some "zzz") }] }
    ∧ parse_dspreset "preset"
        (some (.node "DecentSampler" [] (.cons (.node "groups" [("sustain", "abc")] .nil) .nil))) =
      .error .valueError :=
  ⟨claim_C1_amended.2.1 "zzz", claim_C1_amended.2.2 "abc" (by decide)⟩

/-!  ## C10: the serialized envelope  -/

/-- C10: `preset_to_dict` emits the `GroupSettings` defaults
(attack 0, decay 0, sustain 1, release 0.3, volume 0) as the envelope when
the groups list is empty, and otherwise exactly the first group's
settings, ignoring all later groups. -/
theorem claim_C10 :
    (∀ p : InstrumentPreset,
      (preset_to_dict p).envelope =
        match p.groups with
        | [] => { attack := 0, decay := 0, sustain := 1, release := 3/10, volume_db := 0 }
        | g :: _ => g)
    ∧ (∀ (g1 g2 : GroupSettings),
        preset_to_dict { name := "x", groups := [g1, g2] } =
          { name := "x", source_format := "DecentSampler", samples := [],
            envelope := g1, effects := {} }) := by
  constructor
  · intro p
    cases h : p.groups <;> simp [preset_to_dict, h]
  · intro g1 g2
    rfl

/-!  ## Lemmas about the parsing loops  -/

theorem exMapM_ok_mem {α β : Type} {f : α → Except PyError β} :
    ∀ {l : List α} {l' : List β}, exMapM f l = .ok l' → ∀ b ∈ l', ∃ a ∈ l, f a = .ok b := by
  intro l
  induction l with
  | nil =>
    intro l' h b hb
    simp only [exMapM, Except.ok.injEq] at h
    subst h
    simp at hb
  | cons a as ih =>
    intro l' h b hb
    simp only [exMapM] at h
    obtain ⟨b0, hb0, h⟩ := except_bind_ok.mp h
    obtain ⟨bs, hbs, h⟩ := except_bind_ok.mp h
    simp only [Except.ok.injEq] at h
    subst h
    rcases List.mem_cons.mp hb with rfl | hbmem
    · exact ⟨a, List.mem_cons_self a as, hb0⟩
    · obtain ⟨a', ha', hfa'⟩ := ih hbs b hbmem
      exact ⟨a', List.mem_cons_of_mem a ha', hfa'⟩

/-- A sample mapping produced by `parseSample` carries the sample's own
parsed volume plus the group volume it was given. -/
theorem parseSample_volume {gv : ℚ} {s : Xml} {m : SampleMapping}
    (h : parseSample gv s = .ok m) :
    m.volume_db = parse_db (some (s.attrD "volume" "0dB")) + gv := by
  unfold parseSample at h
  obtain ⟨rn, h1, h⟩ := except_bind_ok.mp h
  obtain ⟨ln, h2, h⟩ := except_bind_ok.mp h
  obtain ⟨hn, h3, h⟩ := except_bind_ok.mp h
  obtain ⟨lv, h4, h⟩ := except_bind_ok.mp h
  obtain ⟨hv, h5, h⟩ := except_bind_ok.mp h
  obtain ⟨pn, h6, h⟩ := except_bind_ok.mp h
  obtain ⟨tn, h7, h⟩ := except_bind_ok.mp h
  obtain ⟨ls, h8, h⟩ := except_bind_ok.mp h
  obtain ⟨le, h9, h⟩ := except_bind_ok.mp h
  obtain ⟨lx, h10, h⟩ := except_bind_ok.mp h
  simp only [Except.ok.injEq] at h
  subst h
  rfl

/-- A successful `parseGroup` is exactly the map of `parseSample` (with
the group's parsed volume) over the group's `<sample>` children. -/
theorem parseGroup_ok_samples {gs : GroupSettings} {g : Xml} {l : List SampleMapping}
    (h : parseGroup gs g = .ok l) :
    exMapM (parseSample (parse_db (some (g.attrD "volume" "0dB"))))
      (g.childrenTagged "sample") = .ok l := by
  unfold parseGroup at h
  obtain ⟨su, hsu, h⟩ := except_bind_ok.mp h
  exact h

/-- C4: every `SampleMapping` produced from a group node has
`volume_db` equal to the sample's own parsed dB value plus the enclosing
group's parsed dB value; in particular a `volume="-3dB"` sample inside a
`volume="2dB"` group yields `volume_db = -1`. -/
theorem claim_C4 :
    (∀ (gs : GroupSettings) (g : Xml) (l : List SampleMapping) (m : SampleMapping),
      parseGroup gs g = .ok l → m ∈ l →
      ∃ s ∈ g.childrenTagged "sample",
        m.volume_db = parse_db (some (s.attrD "volume" "0dB"))
          + parse_db (some (g.attrD "volume" "0dB")))
    ∧ parse_dspreset "p" (some C4doc) =
        .ok { name := "p",
              samples := [{ path := "a.wav", root_note := 60, lo_note := 60, hi_note := 60,
                            volume_db := -1 }],
              groups := [{}], effects := {} } := by
  constructor
  · intro gs g l m h hm
    obtain ⟨s, hs, hfs⟩ := exMapM_ok_mem (parseGroup_ok_samples h) m hm
    exact ⟨s, hs, parseSample_volume hfs⟩
  · simp +decide [parse_dspreset, C4doc, C4group, Xml.findallDesc, Xml.descendants,
      XmlForest.descList, Xml.childrenTagged, Xml.children, XmlForest.toList, Xml.tag,
      Xml.attr, Xml.attrs, Xml.attrD, exMapM, parseCollection, collectionGS, parseGroup,
      parseSample, floatAttr, intAttr, applyEffects, applyEffect, effType, parse_time,
      parse_db, pythonFloat, pyFloatCore, parseSignedMantissa, parseMantissa, splitOnExp,
      splitOnDot, decDigits?, digitsToNat, digitVal, stripPyList, pyLowerStr, pyLower,
      replaceDb, replaceMs, hasMs, isPySpace, isDigitCh, pythonInt, pyIntCore,
      bind, Except.bind]
    norm_num

/-- C4 witness: the additive-volume theorem applied to the concrete
`C4group` element. -/
theorem claim_C4_witness :
    ∃ s ∈ C4group.childrenTagged "sample",
      ({ path := "a.wav", root_note := 60, lo_note := 60, hi_note := 60,
          volume_db := -1 } : SampleMapping).volume_db =
        parse_db (some (s.attrD "volume" "0dB"))
          + parse_db (some (C4group.attrD "volume" "0dB")) :=
  claim_C4.1 {} C4group
    [{ path := "a.wav", root_note := 60, lo_note := 60, hi_note := 60, volume_db := -1 }]
    { path := "a.wav", root_note := 60, lo_note := 60, hi_note := 60, volume_db := -1 }
    (by
      simp +decide [parseGroup, parseSample, C4group, Xml.childrenTagged, Xml.children,
        XmlForest.toList, Xml.tag, Xml.attr, Xml.attrs, Xml.attrD, exMapM, floatAttr,
        intAttr, parse_db, parse_time, pythonFloat, pyFloatCore, parseSignedMantissa,
        parseMantissa, splitOnExp, splitOnDot, decDigits?, digitsToNat, digitVal,
        stripPyList, pyLowerStr, pyLower, replaceDb, replaceMs, hasMs, isPySpace,
        isDigitCh, pythonInt, pyIntCore, bind, Except.bind]
      norm_num)
    (by simp)

/-!  ## C8: the batch driver  -/

theorem scanFolderLoop_eq (files : List (String × Option Xml)) :
    ∀ acc, scanFolderLoop files acc =
      acc ++ files.filterMap (fun f =>
        match parse_dspreset f.1 f.2 with
        | .ok p => some { p with name := f.1 }
        | .error _ => none) := by
  induction files with
  | nil =>
    intro acc
    simp [scanFolderLoop]
  | cons f rest ih =>
    intro acc
    obtain ⟨stem, doc⟩ := f
    simp only [scanFolderLoop]
    cases h : parse_dspreset stem doc with
    | ok p =>
      simp only [List.filterMap_cons, h]
      rw [ih]
      simp
    | error e =>
      simp only [List.filterMap_cons, h]
      exact ih acc

/-- C8: `scan_folder` returns exactly the presets of the files whose parse
succeeds, in discovery order, each with its name overridden by the file
stem; a raising parse is skipped without aborting.  In particular, three
documents of which the middle one is structurally malformed yield exactly
the two valid presets in their original order. -/
theorem claim_C8 :
    (∀ files : List (String × Option Xml),
      scan_folder files = files.filterMap (fun f =>
        match parse_dspreset f.1 f.2 with
        | .ok p => some { p with name := f.1 }
        | .error _ => none))
    ∧ scan_folder [("a", some C3doc0), ("bad", none), ("c", some C3doc0)] =
        [{ name := "a" }, { name := "c" }] := by
  constructor
  · intro files
    rw [scan_folder, scanFolderLoop_eq]
    simp
  · rfl

/-!  ## C3: the round trip through serialization  -/

/-- C3 counterexample: a document with no `<groups>` element and a
document with one default `<groups>` element parse to different presets
with identical serialized dictionaries, so no deserializer can recover the
parse result from the serialized form — the round trip fails on the
`groups` field. -/
theorem claim_C3_counterexample :
    parse_dspreset "p" (some C3doc0) = .ok { name := "p" }
    ∧ parse_dspreset "p" (some C3doc1) = .ok { name := "p", groups := [{}] }
    ∧ ({ name := "p" } : InstrumentPreset) ≠ { name := "p", groups := [{}] }
    ∧ preset_to_dict { name := "p" } = preset_to_dict { name := "p", groups := [{}] } := by
  refine ⟨rfl, ?_, ?_, rfl⟩
  · simp +decide [parse_dspreset, C3doc1, Xml.findallDesc, Xml.descendants,
      XmlForest.descList, Xml.tag, exMapM, parseCollection, collectionGS, floatAttr,
      Xml.attrD, Xml.attr, Xml.attrs, Xml.childrenTagged, Xml.children, XmlForest.toList,
      applyEffects, List.find?, parse_time_default_zero, parse_time_default_release,
      parse_db_default, bind, Except.bind]
  · intro h
    simp [InstrumentPreset.mk.injEq] at h

/-- C3 corrected: the round trip `deserialize (serialize (parse doc)) =
parse doc` holds exactly on the presets with a single group (the
serializer emits only the first group's settings, and a modelled
deserializer can restore only that one group); the name, source format,
samples and effects always survive the round trip. -/
theorem claim_C3_amended :
    (∀ (name : String) (doc : Option Xml) (p : InstrumentPreset) (g : GroupSettings),
      parse_dspreset name doc = .ok p → p.groups = [g] →
      deserialize (preset_to_dict p) = p)
    ∧ (∀ p : InstrumentPreset,
        (deserialize (preset_to_dict p)).name = p.name ∧
        (deserialize (preset_to_dict p)).source_format = p.source_format ∧
        (deserialize (preset_to_dict p)).samples = p.samples ∧
        (deserialize (preset_to_dict p)).effects = p.effects) := by
  constructor
  · rintro name doc p g hparse hg
    cases p
    simp only at hg
    subst hg
    rfl
  · intro p
    exact ⟨rfl, rfl, rfl, rfl⟩

/-- C3 witness: the amended round trip applied to the one-group document
`C3doc1`. -/
theorem claim_C3_witness :
    deserialize (preset_to_dict { name := "p", groups := [{}] }) =
      ({ name := "p", groups := [{}] } : InstrumentPreset) :=
  claim_C3_amended.1 "p" (some C3doc1) { name := "p", groups := [{}] } {}
    (by
      simp +decide [parse_dspreset, C3doc1, Xml.findallDesc, Xml.descendants,
        XmlForest.descList, Xml.tag, exMapM, parseCollection, collectionGS, floatAttr,
        Xml.attrD, Xml.attr, Xml.attrs, Xml.childrenTagged, Xml.children,
        XmlForest.toList, applyEffects, List.find?, parse_time_default_zero,
        parse_time_default_release, parse_db_default, bind, Except.bind])
    rfl

/-!  ## C7: the effect loop  -/

theorem applyEffects_append (eff : EffectSettings) (es₁ es₂ : List Xml) :
    applyEffects eff (es₁ ++ es₂) =
      match applyEffects eff es₁ with
      | .ok mid => applyEffects mid es₂
      | .error er => .error er := by
  induction es₁ generalizing eff with
  | nil => simp [applyEffects]
  | cons e es ih =>
    simp only [List.cons_append, applyEffects]
    cases h : applyEffect eff e with
    | ok eff' => simp [h, Bind.bind, Except.bind, ih]
    | error er => simp [h, Bind.bind, Except.bind]

theorem applyEffect_unrecognized {eff : EffectSettings} {e : Xml}
    (h1 : effType e ≠ "lowpass".data) (h2 : effType e ≠ "highpass".data)
    (h3 : effType e ≠ "reverb".data) (h4 : effType e ≠ "chorus".data) :
    applyEffect eff e = .ok eff := by
  simp only [applyEffect]
  rw [if_neg h1, if_neg h2, if_neg h3, if_neg h4]

theorem applyEffect_reverb {eff : EffectSettings} {e : Xml} {w sz : ℚ}
    (ht : effType e = "reverb".data)
    (hw : floatAttr e "wetLevel" 0 = .ok w)
    (hs : floatAttr e "roomSize" (1/2) = .ok sz) :
    applyEffect eff e = .ok { eff with reverb_wet := w, reverb_size := sz } := by
  simp only [applyEffect, ht]
  rw [one_div] at hs
  simp [if_true, hw, hs, Bind.bind, Except.bind]

theorem applyEffect_preserves_reverb {eff eff' : EffectSettings} {e : Xml}
    (ht : effType e ≠ "reverb".data) (h : applyEffect eff e = .ok eff') :
    eff'.reverb_wet = eff.reverb_wet ∧ eff'.reverb_size = eff.reverb_size := by
  simp only [applyEffect] at h
  by_cases h1 : effType e = "lowpass".data
  · rw [if_pos h1] at h
    obtain ⟨f, hf, h⟩ := except_bind_ok.mp h
    obtain ⟨r, hr, h⟩ := except_bind_ok.mp h
    simp only [Except.ok.injEq] at h
    subst h
    exact ⟨rfl, rfl⟩
  · rw [if_neg h1] at h
    by_cases h2 : effType e = "highpass".data
    · rw [if_pos h2] at h
      obtain ⟨f, hf, h⟩ := except_bind_ok.mp h
      obtain ⟨r, hr, h⟩ := except_bind_ok.mp h
      simp only [Except.ok.injEq] at h
      subst h
      exact ⟨rfl, rfl⟩
    · rw [if_neg h2, if_neg ht] at h
      by_cases h4 : effType e = "chorus".data
      · rw [if_pos h4] at h
        obtain ⟨m, hm, h⟩ := except_bind_ok.mp h
        obtain ⟨r, hr, h⟩ := except_bind_ok.mp h
        obtain ⟨d, hd, h⟩ := except_bind_ok.mp h
        simp only [Except.ok.injEq] at h
        subst h
        exact ⟨rfl, rfl⟩
      · rw [if_neg h4] at h
        simp only [Except.ok.injEq] at h
        subst h
        exact ⟨rfl, rfl⟩

theorem applyEffects_preserves_reverb :
    ∀ {es : List Xml} {eff eff' : EffectSettings},
      (∀ e ∈ es, effType e ≠ "reverb".data) → applyEffects eff es = .ok eff' →
      eff'.reverb_wet = eff.reverb_wet ∧ eff'.reverb_size = eff.reverb_size := by
  intro es
  induction es with
  | nil =>
    intro eff eff' _ h
    simp only [applyEffects, Except.ok.injEq] at h
    subst h
    exact ⟨rfl, rfl⟩
  | cons e es ih =>
    intro eff eff' hne h
    simp only [applyEffects] at h
    obtain ⟨mid, hmid, h⟩ := except_bind_ok.mp h
    have p1 := applyEffect_preserves_reverb (hne e (by simp)) hmid
    have p2 := ih (fun x hx => hne x (by simp [hx])) h
    exact ⟨p2.1.trans p1.1, p2.2.trans p1.2⟩

/-- C7: an effect element with an unrecognized (lowercased) `type` leaves
the `EffectSettings` unchanged, and when the effect loop succeeds the
reverb fields hold the values of the last reverb element (last-write-wins);
in particular two reverb elements with `wetLevel` `0.3` then `0.7` yield
`reverb_wet = 0.7`. -/
theorem claim_C7 :
    (∀ (eff : EffectSettings) (e : Xml),
      effType e ≠ "lowpass".data → effType e ≠ "highpass".data →
      effType e ≠ "reverb".data → effType e ≠ "chorus".data →
      applyEffect eff e = .ok eff)
    ∧ (∀ (es₁ es₂ : List Xml) (e : Xml) (eff : EffectSettings) (w sz : ℚ),
      effType e = "reverb".data →
      floatAttr e "wetLevel" 0 = .ok w →
      floatAttr e "roomSize" (1/2) = .ok sz →
      (∀ e' ∈ es₂, effType e' ≠ "reverb".data) →
      applyEffects {} (es₁ ++ e :: es₂) = .ok eff →
      eff.reverb_wet = w ∧ eff.reverb_size = sz)
    ∧ parse_dspreset "p" (some C7doc) =
        .ok { name := "p",
              effects := { reverb_wet := 7/10, reverb_size := 1/2 } } := by
  refine ⟨?_, ?_, ?_⟩
  · intro eff e h1 h2 h3 h4
    exact applyEffect_unrecognized h1 h2 h3 h4
  · intro es₁ es₂ e eff w sz ht hw hs hne h
    rw [applyEffects_append] at h
    cases hmid : applyEffects {} es₁ with
    | error er => rw [hmid] at h; simp at h
    | ok mid =>
      rw [hmid] at h
      simp only [applyEffects] at h
      obtain ⟨mid', hmid', h⟩ := except_bind_ok.mp h
      rw [applyEffect_reverb ht hw hs] at hmid'
      simp only [Except.ok.injEq] at hmid'
      subst hmid'
      have := applyEffects_preserves_reverb hne h
      exact ⟨this.1, this.2⟩
  · simp +decide [parse_dspreset, C7doc, Xml.findallDesc, Xml.descendants,
      XmlForest.descList, Xml.childrenTagged, Xml.children, XmlForest.toList, Xml.tag,
      Xml.attr, Xml.attrs, Xml.attrD, exMapM, applyEffects, applyEffect, effType,
      floatAttr, pythonFloat, pyFloatCore, parseSignedMantissa, parseMantissa, splitOnExp,
      splitOnDot, decDigits?, digitsToNat, digitVal, stripPyList, pyLowerStr, pyLower,
      isPySpace, isDigitCh, bind, Except.bind]

/-- C7 witness: the unrecognized-type branch applied to a concrete
`flanger` effect element. -/
theorem claim_C7_witness :
    applyEffect {} (Xml.node "effect" [("type", "flanger")] .nil) = .ok {} :=
  claim_C7.1 {} (Xml.node "effect" [("type", "flanger")] .nil)
    (by decide) (by decide) (by decide) (by decide)

/-!  ## C9: group envelope attributes are dead, groups come from the
collection nodes  -/

theorem find?_key_filter_removed {attrs : List (String × String)} {k : String}
    (hk : adsrKeys.contains k = true) :
    (attrs.filter (fun a => !(adsrKeys.contains a.1))).find? (fun a => a.1 = k) = none := by
  induction attrs with
  | nil => rfl
  | cons a rest ih =>
    rw [List.filter_cons]
    cases hc : adsrKeys.contains a.1 with
    | true =>
      rw [if_neg (by simp [hc])]
      exact ih
    | false =>
      rw [if_pos (by simp [hc])]
      have hne : ¬(a.1 = k) := by
        intro he
        rw [he, hk] at hc
        exact Bool.noConfusion hc
      rw [List.find?_cons_of_neg _ (by simpa using hne)]
      exact ih

theorem find?_key_filter_kept {attrs : List (String × String)} {k : String}
    (hk : adsrKeys.contains k = false) :
    (attrs.filter (fun a => !(adsrKeys.contains a.1))).find? (fun a => a.1 = k) =
      attrs.find? (fun a => a.1 = k) := by
  induction attrs with
  | nil => rfl
  | cons a rest ih =>
    rw [List.filter_cons]
    cases hc : adsrKeys.contains a.1 with
    | false =>
      rw [if_pos (by simp [hc])]
      rw [List.find?_cons, List.find?_cons]
      cases hak : decide (a.1 = k) with
      | true => rfl
      | false => exact ih
    | true =>
      rw [if_neg (by simp [hc])]
      have hne : ¬(a.1 = k) := by
        intro he
        rw [he, hk] at hc
        exact Bool.noConfusion hc
      rw [List.find?_cons_of_neg _ (by simpa using hne)]
      exact ih

theorem tag_strip (n : Xml) : (stripGroupADSR n).tag = n.tag := by
  cases n
  rfl

theorem attrs_strip_of_ne {n : Xml} (h : ¬ n.tag = "group") :
    (stripGroupADSR n).attrs = n.attrs := by
  cases n with
  | node t a cs =>
    simp only [Xml.tag] at h
    simp [stripGroupADSR, Xml.attrs, h]

theorem attr_strip_of_ne {n : Xml} (h : ¬ n.tag = "group") (k : String) :
    (stripGroupADSR n).attr k = n.attr k := by
  simp [Xml.attr, attrs_strip_of_ne h]

theorem attr_strip_group_removed {n : Xml} (hg : n.tag = "group") {k : String}
    (hk : adsrKeys.contains k = true) : (stripGroupADSR n).attr k = none := by
  cases n with
  | node t a cs =>
    simp only [Xml.tag] at hg
    simp only [stripGroupADSR, Xml.attr, Xml.attrs, if_pos hg]
    rw [find?_key_filter_removed hk]
    rfl

theorem attr_strip_group_kept {n : Xml} {k : String}
    (hk : adsrKeys.contains k = false) : (stripGroupADSR n).attr k = n.attr k := by
  cases n with
  | node t a cs =>
    by_cases hg : t = "group"
    · simp only [stripGroupADSR, Xml.attr, Xml.attrs, if_pos hg]
      rw [find?_key_filter_kept hk]
    · simp [stripGroupADSR, Xml.attr, Xml.attrs, hg]

theorem stripForest_toList :
    ∀ f : XmlForest, (stripForest f).toList = f.toList.map stripGroupADSR
  | .nil => rfl
  | .cons x xs => by
    simp only [stripForest, XmlForest.toList, List.map_cons]
    rw [stripForest_toList xs]

theorem children_strip (n : Xml) :
    (stripGroupADSR n).children = n.children.map stripGroupADSR := by
  cases n with
  | node t a cs => simp [stripGroupADSR, Xml.children, stripForest_toList]

theorem childrenTagged_strip (n : Xml) (t : String) :
    (stripGroupADSR n).childrenTagged t = (n.childrenTagged t).map stripGroupADSR := by
  unfold Xml.childrenTagged
  rw [children_strip, List.filter_map]
  exact congrArg _ (List.filter_congr (fun c _ => by simp [Function.comp, tag_strip]))

mutual
theorem descendants_strip :
    ∀ n : Xml, (stripGroupADSR n).descendants = n.descendants.map stripGroupADSR
  | .node t a cs => by
    simp only [stripGroupADSR, Xml.descendants]
    exact descList_strip cs
theorem descList_strip :
    ∀ f : XmlForest, (stripForest f).descList = f.descList.map stripGroupADSR
  | .nil => rfl
  | .cons x xs => by
    simp only [stripForest, XmlForest.descList, List.map_cons, List.map_append]
    rw [descendants_strip x, descList_strip xs]
end

theorem findallDesc_strip (n : Xml) (t : String) :
    (stripGroupADSR n).findallDesc t = (n.findallDesc t).map stripGroupADSR := by
  unfold Xml.findallDesc
  rw [descendants_strip, List.filter_map]
  exact congrArg _ (List.filter_congr (fun c _ => by simp [Function.comp, tag_strip]))

theorem mem_findallDesc_tag {n : Xml} {t : String} {c : Xml} (h : c ∈ n.findallDesc t) :
    c.tag = t := by
  unfold Xml.findallDesc at h
  simpa using (List.mem_filter.mp h).2

theorem mem_childrenTagged_tag {n : Xml} {t : String} {c : Xml} (h : c ∈ n.childrenTagged t) :
    c.tag = t := by
  unfold Xml.childrenTagged at h
  simpa using (List.mem_filter.mp h).2

theorem intAttr_strip {s : Xml} (h : ¬ s.tag = "group") (k : String) (d : ℤ) :
    intAttr (stripGroupADSR s) k d = intAttr s k d := by
  unfold intAttr
  rw [attr_strip_of_ne h]

theorem floatAttr_strip {s : Xml} (h : ¬ s.tag = "group") (k : String) (d : ℚ) :
    floatAttr (stripGroupADSR s) k d = floatAttr s k d := by
  unfold floatAttr
  rw [attr_strip_of_ne h]

theorem parseSample_strip {gv : ℚ} {s : Xml} (h : ¬ s.tag = "group") :
    parseSample gv (stripGroupADSR s) = parseSample gv s := by
  simp only [parseSample, Xml.attrD, attr_strip_of_ne h, intAttr_strip h, floatAttr_strip h]

theorem applyEffect_strip {eff : EffectSettings} {e : Xml} (h : ¬ e.tag = "group") :
    applyEffect eff (stripGroupADSR e) = applyEffect eff e := by
  simp only [applyEffect, effType, Xml.attrD, attr_strip_of_ne h, floatAttr_strip h]

theorem applyEffects_map_strip :
    ∀ {es : List Xml} {eff : EffectSettings}, (∀ e ∈ es, ¬ e.tag = "group") →
      applyEffects eff (es.map stripGroupADSR) = applyEffects eff es := by
  intro es
  induction es with
  | nil => intro eff _; rfl
  | cons e es ih =>
    intro eff hne
    simp only [List.map_cons, applyEffects]
    rw [applyEffect_strip (hne e (by simp))]
    cases h : applyEffect eff e with
    | ok eff' => simp [Bind.bind, Except.bind, h, ih (fun x hx => hne x (by simp [hx]))]
    | error er => simp [Bind.bind, Except.bind, h]

theorem exMapM_map_ok {α β : Type} {f : α → Except PyError β} {g : α → α} :
    ∀ {l : List α} {rs : List β}, exMapM f l = .ok rs →
      (∀ a ∈ l, ∀ r, f a = .ok r → f (g a) = .ok r) →
      exMapM f (l.map g) = .ok rs := by
  intro l
  induction l with
  | nil => intro rs h _; simpa using h
  | cons a as ih =>
    intro rs h hcong
    simp only [exMapM] at h
    obtain ⟨b, hb, h⟩ := except_bind_ok.mp h
    obtain ⟨bs, hbs, h⟩ := except_bind_ok.mp h
    simp only [Except.ok.injEq] at h
    subst h
    simp only [List.map_cons, exMapM]
    rw [hcong a (by simp) b hb]
    simp only [Bind.bind, Except.bind]
    rw [ih hbs (fun x hx => hcong x (by simp [hx]))]

theorem collectionGS_strip {c : Xml} (h : ¬ c.tag = "group") :
    collectionGS (stripGroupADSR c) = collectionGS c := by
  simp only [collectionGS, Xml.attrD, attr_strip_of_ne h, floatAttr_strip h]

theorem parseGroup_strip {gs : GroupSettings} {g : Xml} {l : List SampleMapping}
    (hg : g.tag = "group") (h : parseGroup gs g = .ok l) :
    parseGroup gs (stripGroupADSR g) = .ok l := by
  have hvol : (stripGroupADSR g).attrD "volume" "0dB" = g.attrD "volume" "0dB" := by
    simp [Xml.attrD, attr_strip_group_kept (show adsrKeys.contains "volume" = false by decide)]
  have hsus : floatAttr (stripGroupADSR g) "sustain" gs.sustain = .ok gs.sustain := by
    unfold floatAttr
    rw [attr_strip_group_removed hg (by decide)]
  have horig := parseGroup_ok_samples h
  unfold parseGroup
  rw [hvol, hsus]
  simp only [Bind.bind, Except.bind]
  rw [childrenTagged_strip]
  exact exMapM_map_ok horig (fun s hs r hr => by
    rw [parseSample_strip (by rw [mem_childrenTagged_tag hs]; decide)]
    exact hr)

theorem parseCollection_ok_fst {c : Xml} {r : GroupSettings × List SampleMapping}
    (h : parseCollection c = .ok r) : collectionGS c = .ok r.1 := by
  unfold parseCollection at h
  obtain ⟨gs, hgs, h⟩ := except_bind_ok.mp h
  obtain ⟨ss, hss, h⟩ := except_bind_ok.mp h
  simp only [Except.ok.injEq] at h
  rw [hgs, ← h]

theorem parseCollection_strip {c : Xml} {r : GroupSettings × List SampleMapping}
    (hc : c.tag = "groups") (h : parseCollection c = .ok r) :
    parseCollection (stripGroupADSR c) = .ok r := by
  have hg : ¬ c.tag = "group" := by rw [hc]; decide
  unfold parseCollection at h ⊢
  obtain ⟨gs, hgs, h⟩ := except_bind_ok.mp h
  obtain ⟨ss, hss, h⟩ := except_bind_ok.mp h
  rw [collectionGS_strip hg, hgs]
  simp only [Bind.bind, Except.bind]
  rw [childrenTagged_strip]
  rw [exMapM_map_ok hss (fun g hgm rr hrr =>
    parseGroup_strip (mem_childrenTagged_tag hgm) hrr)]
  exact h

theorem exMapM_collectionGS_of_parse :
    ∀ {cs : List Xml} {rs : List (GroupSettings × List SampleMapping)},
      exMapM parseCollection cs = .ok rs →
      exMapM collectionGS cs = .ok (rs.map (fun r => r.1)) := by
  intro cs
  induction cs with
  | nil =>
    intro rs h
    simp only [exMapM, Except.ok.injEq] at h
    subst h
    rfl
  | cons c cs ih =>
    intro rs h
    simp only [exMapM] at h ⊢
    obtain ⟨r, hr, h⟩ := except_bind_ok.mp h
    obtain ⟨rest, hrest, h⟩ := except_bind_ok.mp h
    simp only [Except.ok.injEq] at h
    subst h
    rw [parseCollection_ok_fst hr]
    simp only [Bind.bind, Except.bind]
    rw [ih hrest]
    simp

/-- C9: for every successfully parsed document, the preset's `groups` list
is exactly `collectionGS` of each `<groups>` collection node in document
order (one record per collection, from that node's own attributes); an
attribute-less collection yields the global defaults (attack 0, decay 0,
sustain 1, release 0.3, volume 0 dB); and deleting the
`attack`/`decay`/`sustain`/`release` attributes of every `<group>` element
leaves the parse result unchanged — those per-group attributes affect no
field of the returned preset. -/
theorem claim_C9 :
    (∀ (name : String) (root : Xml) (p : InstrumentPreset),
      parse_dspreset name (some root) = .ok p →
      exMapM collectionGS (root.findallDesc "groups") = .ok p.groups)
    ∧ (∀ (t : String) (cs : XmlForest),
        collectionGS (.node t [] cs) =
          .ok { attack := 0, decay := 0, sustain := 1, release := 3/10, volume_db := 0 })
    ∧ (∀ (name : String) (root : Xml) (p : InstrumentPreset),
      parse_dspreset name (some root) = .ok p →
      parse_dspreset name (some (stripGroupADSR root)) = .ok p) := by
  refine ⟨?_, ?_, ?_⟩
  · intro name root p h
    unfold parse_dspreset at h
    obtain ⟨colls, hcolls, h⟩ := except_bind_ok.mp h
    obtain ⟨effects, heff, h⟩ := except_bind_ok.mp h
    simp only [Except.ok.injEq] at h
    rw [exMapM_collectionGS_of_parse hcolls, ← h]
  · intro t cs
    simp [collectionGS, floatAttr, Xml.attrD, Xml.attr, Xml.attrs, List.find?,
      parse_time_default_zero, parse_time_default_release, parse_db_default,
      Bind.bind, Except.bind]
  · intro name root p h
    simp only [parse_dspreset] at h ⊢
    obtain ⟨colls, hcolls, h⟩ := except_bind_ok.mp h
    obtain ⟨effects, heff, h⟩ := except_bind_ok.mp h
    rw [findallDesc_strip]
    rw [exMapM_map_ok hcolls (fun c hc r hr =>
      parseCollection_strip (mem_findallDesc_tag hc) hr)]
    simp only [Bind.bind, Except.bind]
    rw [findallDesc_strip]
    rw [applyEffects_map_strip (fun e he => by rw [mem_findallDesc_tag he]; decide), heff]
    exact h

/-- C9 witness: the dead-attribute theorem applied to `C9doc`, whose
`<group>` element carries `attack="9"`. -/
theorem claim_C9_witness :
    parse_dspreset "p" (some (stripGroupADSR C9doc)) =
      .ok { name := "p", groups := [{}] } :=
  claim_C9.2.2 "p" C9doc { name := "p", groups := [{}] }
    (by
      simp +decide [parse_dspreset, C9doc, Xml.findallDesc, Xml.descendants,
        XmlForest.descList, Xml.childrenTagged, Xml.children, XmlForest.toList, Xml.tag,
        Xml.attr, Xml.attrs, Xml.attrD, exMapM, parseCollection, collectionGS, parseGroup,
        parseSample, floatAttr, intAttr, applyEffects, applyEffect, effType, parse_time,
        parse_db, pythonFloat, pyFloatCore, parseSignedMantissa, parseMantissa, splitOnExp,
        splitOnDot, decDigits?, digitsToNat, digitVal, stripPyList, pyLowerStr, pyLower,
        replaceDb, replaceMs, hasMs, isPySpace, isDigitCh, pythonInt, pyIntCore,
        bind, Except.bind])

end Dspreset
